import Mathlib

/-!
Verification of the tagged option registry `swift/codegen/lib/options.py`.

The module keeps a process-wide `collections.defaultdict(list)` named
`_options`, mapping a tag string to the list of `Option` objects registered
under it.  `Option.__init__(*args, tags=None, **kwargs)` stores the flag
spellings (`args`) and the parser directives (`kwargs`), and appends the new
object to `_options[t]` for each declared tag `t`, or to `_options["*"]`
(the wildcard tag) when no tags were declared.  `Option.add_to(parser)`
forwards `args` and `kwargs` to `parser.add_argument` unchanged.
`get(tags)` returns the generator expression
`(o for tag in ("*",) + tuple(tags) for o in _options[tag])`.

The shallow embedding below passes the module-global dictionary around as an
explicit association list (key insertion order preserved, as in a Python
dict).  Directive values (argparse actions, converters, defaults computed
through the external `paths` helper) are opaque to the registry and are
modelled as strings.  A Python generator expression is a one-shot iterator
that touches the dictionary only while being consumed, so `get` is modelled
in two parts: `getRun`, one full consumption of the generator (the produced
elements together with the defaultdict state after the subscripts ran), and
`get`, the generator object itself.
-/

namespace OptionsPy

/-- One `Option` object as stored by `Option.__init__`: the flag spellings
`self.args` and the keyword directives `self.kwargs` (opaque pass-through
data for `argparse`). -/
structure Opt where
  args : List String
  kwargs : List (String × String)
deriving DecidableEq

/-- The module-global `_options = collections.defaultdict(list)`: an
insertion-ordered association list from tag to the registered options. -/
abbrev Registry := List (String × List Opt)

/-- The defaultdict subscript `_options[t]`: the stored list when the key is
present; otherwise the default factory inserts `(t, [])` at the end and
yields `[]` (Python `defaultdict.__missing__`). Returns the looked-up value
and the possibly enlarged dictionary. -/
def lookupIns : Registry → String → List Opt × Registry
  | [], t => ([], [(t, [])])
  | (k, v) :: rest, t =>
    if k = t then (v, (k, v) :: rest)
    else
      let r := lookupIns rest t
      (r.1, (k, v) :: r.2)

/-- The pure read view of the defaultdict: the sequence registered under `t`,
`[]` when `t` is absent. -/
def lookupD : Registry → String → List Opt
  | [], _ => []
  | (k, v) :: rest, t => if k = t then v else lookupD rest t

/-- `_options[t].append(o)`: append `o` to the list stored under `t`,
materialising the key (with `[o]`) at the end when absent. -/
def dictAppend : Registry → String → Opt → Registry
  | [], t, o => [(t, [o])]
  | (k, v) :: rest, t, o =>
    if k = t then (k, v ++ [o]) :: rest
    else (k, v) :: dictAppend rest t o

/-- `Option.__init__(*args, tags=None, **kwargs)`: `tags = tags or []`; when
the tag list is non-empty the new object is appended under each tag in it,
otherwise under the wildcard tag `"*"`. Returns the constructed object and
the updated registry (explicit state passing for the global `_options`). -/
def mkOption (args : List String) (kwargs : List (String × String))
    (tags : List String) (reg : Registry) : Opt × Registry :=
  let o : Opt := ⟨args, kwargs⟩
  if tags.isEmpty then (o, dictAppend reg "*" o)
  else (o, tags.foldl (fun r t => dictAppend r t o) reg)

/-- How many times `Option.__init__` with tag list `tags` appends the new
object under tag `t`: once per occurrence of `t` in `tags`, or once under
`"*"` when `tags` is empty. -/
def regCount (tags : List String) (t : String) : Nat :=
  if tags.isEmpty then (if t = "*" then 1 else 0) else tags.count t

/-- One `Option(...)` declaration line of `_init_options`. -/
structure Decl where
  args : List String
  kwargs : List (String × String)
  tags : List String
deriving DecidableEq

/-- The object a declaration constructs. -/
def Decl.opt (d : Decl) : Opt := ⟨d.args, d.kwargs⟩

/-- Execute a list of declarations in order against a registry, as
`_init_options` does at import time. -/
def registerAll (ds : List Decl) (reg : Registry) : Registry :=
  ds.foldl (fun r d => (mkOption d.args d.kwargs d.tags r).2) reg

/-- A Python generator of options: the elements it has not yet produced.
A generator expression is a one-shot iterator. -/
structure Gen where
  remaining : List Opt
deriving DecidableEq

/-- Running a generator to exhaustion (e.g. `list(g)` or a `for` loop):
yields all remaining elements and leaves the generator exhausted. -/
def Gen.consume (g : Gen) : List Opt × Gen := (g.remaining, ⟨[]⟩)

/-- One full consumption of the generator returned by `get(tags)`:
`(o for tag in ("*",) + tuple(tags) for o in _options[tag])`.  Each
subscript `_options[tag]` goes through the defaultdict, so the dictionary
state is threaded along; the result is the produced element sequence and
the dictionary after iteration. -/
def getRun (reg : Registry) (tags : List String) : List Opt × Registry :=
  ("*" :: tags).foldl
    (fun acc t =>
      let r := lookupIns acc.2 t
      (acc.1 ++ r.1, r.2))
    ([], reg)

/-- `get(tags)`: the generator object handed back to the caller.  Its
element stream is the one `getRun` produces. -/
def get (reg : Registry) (tags : List String) : Gen :=
  ⟨(getRun reg tags).1⟩

/-- `argparse.ArgumentParser` as observed from this module: the record of
`add_argument(*args, **kwargs)` calls it has received. -/
structure Parser where
  flags : List (List String × List (String × String))
deriving DecidableEq

/-- `parser.add_argument(*args, **kwargs)`: registers one more flag. -/
def addArgument (p : Parser) (args : List String)
    (kwargs : List (String × String)) : Parser :=
  ⟨p.flags ++ [(args, kwargs)]⟩

/-- `Option.add_to(self, parser)`: forwards the stored spellings and
directives to the parser unchanged. -/
def Opt.addTo (o : Opt) (p : Parser) : Parser :=
  addArgument p o.args o.kwargs

/-! ### Helper lemmas about the defaultdict operations -/

theorem lookupIns_fst (reg : Registry) (t : String) :
    (lookupIns reg t).1 = lookupD reg t := by
  induction reg with
  | nil => rfl
  | cons p rest ih =>
    obtain ⟨k, v⟩ := p
    by_cases h : k = t <;> simp [lookupIns, lookupD, h, ih]

theorem lookupD_lookupIns (reg : Registry) (t s : String) :
    lookupD (lookupIns reg t).2 s = lookupD reg s := by
  induction reg with
  | nil =>
    by_cases h : t = s <;> simp [lookupIns, lookupD, h]
  | cons p rest ih =>
    obtain ⟨k, v⟩ := p
    by_cases h : k = t <;> simp [lookupIns, lookupD, h, ih]

theorem lookupD_dictAppend (reg : Registry) (t : String) (o : Opt) (s : String) :
    lookupD (dictAppend reg t o) s =
      if s = t then lookupD reg s ++ [o] else lookupD reg s := by
  induction reg with
  | nil =>
    by_cases h : s = t
    · subst h; simp [dictAppend, lookupD]
    · have h2 : ¬t = s := fun h3 => h h3.symm
      simp [dictAppend, lookupD, h, h2]
  | cons p rest ih =>
    obtain ⟨k, v⟩ := p
    by_cases hk : k = t
    · subst hk
      by_cases hs : s = k
      · subst hs; simp [dictAppend, lookupD]
      · have hs2 : ¬k = s := fun h3 => hs h3.symm
        simp [dictAppend, lookupD, hs, hs2]
    · by_cases hs : s = k
      · subst hs
        simp [dictAppend, lookupD, hk]
      · have hs2 : ¬k = s := fun h3 => hs h3.symm
        simp [dictAppend, lookupD, hk, hs, hs2, ih]

theorem lookupD_foldl_dictAppend (tags : List String) (o : Opt) (reg : Registry)
    (t : String) :
    lookupD (tags.foldl (fun r u => dictAppend r u o) reg) t =
      lookupD reg t ++ List.replicate (tags.count t) o := by
  induction tags generalizing reg with
  | nil => simp
  | cons u rest ih =>
    simp only [List.foldl_cons, ih, lookupD_dictAppend, List.count_cons]
    by_cases h : t = u
    · subst h; simp [List.replicate_succ, List.append_assoc]
    · have h2 : ¬u = t := fun h3 => h h3.symm
      simp [h, h2]

theorem lookupD_mkOption (args : List String) (kwargs : List (String × String))
    (tags : List String) (reg : Registry) (t : String) :
    lookupD (mkOption args kwargs tags reg).2 t =
      lookupD reg t ++ List.replicate (regCount tags t) ⟨args, kwargs⟩ := by
  unfold mkOption regCount
  by_cases h : tags.isEmpty
  · by_cases hw : t = "*" <;> simp [h, hw, lookupD_dictAppend]
  · simp [h, lookupD_foldl_dictAppend]

theorem flatMap_congrFun {α β : Type} (f g : α → List β) (l : List α)
    (h : ∀ x, f x = g x) : l.flatMap f = l.flatMap g := by
  induction l with
  | nil => rfl
  | cons a rest ih => simp [List.flatMap_cons, h, ih]

theorem getRun_aux (ts : List String) (acc : List Opt) (reg : Registry) :
    (ts.foldl (fun a t => ((a.1 ++ (lookupIns a.2 t).1, (lookupIns a.2 t).2)))
        (acc, reg)).1 = acc ++ ts.flatMap (lookupD reg)
    ∧ ∀ s, lookupD
        (ts.foldl (fun a t => ((a.1 ++ (lookupIns a.2 t).1, (lookupIns a.2 t).2)))
          (acc, reg)).2 s = lookupD reg s := by
  induction ts generalizing acc reg with
  | nil => simp
  | cons t rest ih =>
    simp only [List.foldl_cons]
    have h1 := ih (acc ++ (lookupIns reg t).1) (lookupIns reg t).2
    refine ⟨?_, ?_⟩
    · rw [h1.1, lookupIns_fst,
        flatMap_congrFun (lookupD (lookupIns reg t).2) (lookupD reg) rest
          (fun s => lookupD_lookupIns reg t s),
        List.append_assoc, List.flatMap_cons]
    · intro s
      rw [h1.2 s, lookupD_lookupIns]

theorem getRun_fst (reg : Registry) (tags : List String) :
    (getRun reg tags).1 = lookupD reg "*" ++ tags.flatMap (lookupD reg) := by
  have h := getRun_aux ("*" :: tags) [] reg
  simpa [getRun, List.flatMap_cons] using h.1

theorem getRun_snd (reg : Registry) (tags : List String) (s : String) :
    lookupD (getRun reg tags).2 s = lookupD reg s := by
  have h := getRun_aux ("*" :: tags) [] reg
  exact h.2 s

theorem count_flatMap_lookupD (reg : Registry) (tags : List String) (o : Opt) :
    (tags.flatMap (lookupD reg)).count o =
      (tags.map (fun t => (lookupD reg t).count o)).sum := by
  induction tags with
  | nil => rfl
  | cons t rest ih => simp [List.flatMap_cons, List.count_append, ih]

theorem lookupD_registerAll (ds : List Decl) (reg : Registry) (t : String) :
    lookupD (registerAll ds reg) t =
      lookupD reg t ++
        ds.flatMap (fun d => List.replicate (regCount d.tags t) d.opt) := by
  induction ds generalizing reg with
  | nil => simp [registerAll]
  | cons d rest ih =>
    show lookupD (registerAll rest (mkOption d.args d.kwargs d.tags reg).2) t = _
    rw [ih, lookupD_mkOption, List.flatMap_cons, List.append_assoc]
    rfl

theorem sum_map_eq_count_mul (f : String → Nat) (ts : List String)
    (h : ∀ t ∈ ts, t ≠ "*" → f t = 0) :
    (ts.map f).sum = ts.count "*" * f "*" := by
  induction ts with
  | nil => simp
  | cons t rest ih =>
    have ih2 := ih (fun u hu => h u (List.mem_cons_of_mem t hu))
    by_cases ht : t = "*"
    · subst ht
      simp only [List.map_cons, List.sum_cons, ih2, List.count_cons_self]
      ring
    · have h0 : f t = 0 := h t (List.mem_cons_self t rest) ht
      simp [List.count_cons, ht, h0, ih2]

theorem lookupD_eq_nil_of_absent (reg : Registry) (t : String) :
    (∀ p ∈ reg, p.1 ≠ t) → lookupD reg t = [] := by
  induction reg with
  | nil => intro _; rfl
  | cons p rest ih =>
    intro h
    obtain ⟨k, v⟩ := p
    have hk : ¬k = t := h (k, v) (List.mem_cons_self _ _)
    simp only [lookupD, if_neg hk]
    exact ih (fun q hq => h q (List.mem_cons_of_mem _ hq))

/-! ### Concrete fixtures (the first declarations of `_init_options`) -/

/-- The untagged `--verbose` option declared by `_init_options`. -/
def oVerbose : Opt := ⟨["--verbose", "-v"], [("action", "store_true")]⟩

/-- The `--schema` option declared by `_init_options` (directive values are
opaque to the registry and modelled as strings). -/
def oSchema : Opt := ⟨["--schema"], [("type", "abspath")]⟩

/-- Registry state after declaring only the untagged `--verbose` option. -/
def regVerbose : Registry :=
  (mkOption ["--verbose", "-v"] [("action", "store_true")] [] []).2

/-- Registry state after declaring `--verbose` (untagged) and then
`--schema` (tagged `"schema"`), as the first two lines of `_init_options`
do. -/
def regSample : Registry :=
  (mkOption ["--schema"] [("type", "abspath")] ["schema"] regVerbose).2

/-- A hypothetical multi-tag declaration: one option tagged both `"a"` and
`"b"`. -/
def oMulti : Opt := ⟨["--multi"], []⟩

/-- Registry holding only `oMulti`, registered under `"a"` and `"b"`. -/
def regMulti : Registry := (mkOption ["--multi"] [] ["a", "b"] []).2

/-! ### Claim theorems -/

/-- C1: `get(requestedTags)` produces the wildcard sequence followed by, for
each requested tag in the order supplied, that tag's full sequence from the
registry; with an empty tag set it produces exactly the wildcard sequence. -/
theorem C1_get_concatenates_wildcard_then_tags (reg : Registry)
    (tags : List String) :
    (getRun reg tags).1 = lookupD reg "*" ++ tags.flatMap (lookupD reg)
    ∧ (getRun reg []).1 = lookupD reg "*" := by
  refine ⟨getRun_fst reg tags, ?_⟩
  simpa using getRun_fst reg []

/-- C2: on construction, an Option is appended under tag `t` exactly
`regCount tags t` times — i.e. once per occurrence of `t` among its declared
tags when the tag list is non-empty (so never under the wildcard unless
`"*"` itself were declared), and exactly once under the wildcard `"*"` when
the tag list is empty; every other tag's sequence is unchanged. -/
theorem C2_registration_under_declared_tags (args : List String)
    (kwargs : List (String × String)) (tags : List String) (reg : Registry)
    (t : String) :
    lookupD (mkOption args kwargs tags reg).2 t =
      lookupD reg t ++ List.replicate (regCount tags t) ⟨args, kwargs⟩ :=
  lookupD_mkOption args kwargs tags reg t

/-- C3: running any list of declarations leaves, under every tag, the
previous sequence followed by the newly constructed options in declaration
order (one copy per registration under that tag) — registration only
appends, never removes or replaces. -/
theorem C3_declaration_order (ds : List Decl) (reg : Registry) (t : String) :
    lookupD (registerAll ds reg) t =
      lookupD reg t ++
        ds.flatMap (fun d => List.replicate (regCount d.tags t) d.opt) :=
  lookupD_registerAll ds reg t

/-- C4: `get` performs no deduplication: an option occurs in the result once
per matching tag occurrence (the wildcard count plus the sum of its counts
under each requested tag, with repeats); concretely, the option declared
with tags `["a", "b"]` occurs once in `get(["a"])`, once in `get(["b"])`,
twice in `get(["a", "b"])`, and twice in `get(["a", "a"])`. -/
theorem C4_no_dedup (reg : Registry) (tags : List String) (o : Opt) :
    ((getRun reg tags).1).count o =
      (lookupD reg "*").count o
        + (tags.map (fun t => (lookupD reg t).count o)).sum
    ∧ ((getRun regMulti ["a"]).1.count oMulti = 1
      ∧ (getRun regMulti ["b"]).1.count oMulti = 1
      ∧ (getRun regMulti ["a", "b"]).1.count oMulti = 2
      ∧ (getRun regMulti ["a", "a"]).1.count oMulti = 2) := by
  refine ⟨?_, by decide, by decide, by decide, by decide⟩
  rw [getRun_fst, List.count_append, count_flatMap_lookupD]

/-- C5 as stated is false: the value returned by `get` is a generator, a
one-shot iterator — consuming `get({})` on a registry holding one untagged
option yields that option, but iterating the same returned value again
yields nothing, not the same elements. -/
theorem C5_counterexample_one_shot :
    (get regVerbose []).consume.2.consume.1 ≠ (get regVerbose []).consume.1 := by
  decide

/-- C5 amended: the value returned by `get(T)` is a one-shot generator: its
first full consumption yields the wildcard sequence followed by the
requested tags' sequences, and consuming the already consumed value yields
nothing; the element stream itself is determined by the registry and the
tags, so separate calls with the same arguments produce the same elements. -/
theorem C5_amended_get_one_shot (reg : Registry) (tags : List String) :
    (get reg tags).consume.1 = lookupD reg "*" ++ tags.flatMap (lookupD reg)
    ∧ (get reg tags).consume.2.consume.1 = [] :=
  ⟨getRun_fst reg tags, rfl⟩

/-- C6 as stated is false: consuming `get({"schema"})` on a registry whose
defaultdict has no key `"schema"` inserts the empty entry
`("schema", [])`, so the registry mapping is not left exactly unchanged. -/
theorem C6_counterexample_defaultdict_grows :
    (getRun regVerbose ["schema"]).2 ≠ regVerbose := by
  decide

/-- C6 amended: retrieval never changes any tag's registered sequence — the
tag-to-sequence view of the registry is pointwise unchanged by iterating
`get` (defaultdict lookups may materialise empty entries for previously
unseen tags, but no Option is ever added, removed, or reordered). -/
theorem C6_amended_get_preserves_sequences (reg : Registry)
    (tags : List String) (s : String) :
    lookupD (getRun reg tags).2 s = lookupD reg s :=
  getRun_snd reg tags s

/-- C7: registration and retrieval are total functions of the embedding
(nothing can raise), and a tag absent from the registry contributes an empty
sequence: its lookup is `[]`, and appending it to a request leaves the
produced elements unchanged. -/
theorem C7_absent_tag_contributes_nothing (reg : Registry) (t : String)
    (h : ∀ p ∈ reg, p.1 ≠ t) (tags : List String) :
    lookupD reg t = [] ∧ (getRun reg (tags ++ [t])).1 = (getRun reg tags).1 := by
  have he : lookupD reg t = [] := lookupD_eq_nil_of_absent reg t h
  refine ⟨he, ?_⟩
  rw [getRun_fst, getRun_fst]
  simp [List.flatMap_append, he]

/-- Witness for C7 at a concrete input: `"dbscheme"` is absent from the
two-entry sample registry and contributes nothing. -/
theorem C7_witness :
    (∀ p ∈ regSample, p.1 ≠ "dbscheme")
    ∧ (lookupD regSample "dbscheme" = []
      ∧ (getRun regSample (["schema"] ++ ["dbscheme"])).1
          = (getRun regSample ["schema"]).1) :=
  ⟨by decide,
    C7_absent_tag_contributes_nothing regSample "dbscheme" (by decide) ["schema"]⟩

/-- C8: retrieval is monotone under tag-set inclusion — if every tag of `T1`
is in `T2`, an option attributable to a tag of `T1` appears in `get(T2)`;
and every untagged (wildcard-registered) option appears in `get(T)` for
every tag list `T`. -/
theorem C8_monotone (reg : Registry) (T1 T2 : List String)
    (hsub : ∀ t ∈ T1, t ∈ T2) (o : Opt) (t : String) (ht : t ∈ T1)
    (ho : o ∈ lookupD reg t) (u : Opt) (hu : u ∈ lookupD reg "*")
    (T : List String) :
    o ∈ (getRun reg T2).1 ∧ u ∈ (getRun reg T).1 := by
  constructor
  · rw [getRun_fst]
    exact List.mem_append_right _ (List.mem_flatMap.mpr ⟨t, hsub t ht, ho⟩)
  · rw [getRun_fst]
    exact List.mem_append_left _ hu

/-- Witness for C8 at a concrete input: `["schema"] ⊆ ["schema", "dbscheme"]`,
the schema-tagged option appears in the larger request, and the untagged
option appears even for the unrelated request `["trap"]`. -/
theorem C8_witness :
    (∀ t ∈ ["schema"], t ∈ ["schema", "dbscheme"])
    ∧ ("schema" ∈ ["schema"])
    ∧ (oSchema ∈ lookupD regSample "schema")
    ∧ (oVerbose ∈ lookupD regSample "*")
    ∧ (oSchema ∈ (getRun regSample ["schema", "dbscheme"]).1
      ∧ oVerbose ∈ (getRun regSample ["trap"]).1) :=
  ⟨by decide, by decide, by decide, by decide,
    C8_monotone regSample ["schema"] ["schema", "dbscheme"] (by decide) oSchema
      "schema" (by decide) (by decide) oVerbose (by decide) ["trap"]⟩

/-- C9: `add_to` appends exactly one flag record to the parser, carrying the
stored spellings and directives unchanged; applying it again re-applies the
same declaration (the Option itself is immutable, so repeated applications
against any collaborators forward identical data). -/
theorem C9_addTo_forwards (o : Opt) (p : Parser) :
    (o.addTo p).flags = p.flags ++ [(o.args, o.kwargs)]
    ∧ (o.addTo (o.addTo p)).flags =
        p.flags ++ [(o.args, o.kwargs), (o.args, o.kwargs)] := by
  constructor <;> simp [Opt.addTo, addArgument]

/-- C10: when the requested tags contain the wildcard tag `"*"` itself
exactly once, an option counted once in the wildcard sequence and zero times
under every other requested tag appears exactly twice in the result: once
from the always-prepended wildcard sequence and once for the explicit `"*"`
entry. -/
theorem C10_wildcard_requested_twice (reg : Registry) (tags : List String)
    (o : Opt) (h1 : tags.count "*" = 1) (h2 : (lookupD reg "*").count o = 1)
    (h3 : ∀ t ∈ tags, t ≠ "*" → (lookupD reg t).count o = 0) :
    ((getRun reg tags).1).count o = 2 := by
  rw [getRun_fst, List.count_append, count_flatMap_lookupD, h2,
    sum_map_eq_count_mul (fun t => (lookupD reg t).count o) tags h3, h1, h2]

/-- Witness for C10 at a concrete input: requesting `["schema", "*"]` on the
sample registry returns the untagged `--verbose` option twice. -/
theorem C10_witness :
    (["schema", "*"].count "*" = 1)
    ∧ ((lookupD regSample "*").count oVerbose = 1)
    ∧ (∀ t ∈ ["schema", "*"], t ≠ "*" → (lookupD regSample t).count oVerbose = 0)
    ∧ ((getRun regSample ["schema", "*"]).1).count oVerbose = 2 :=
  ⟨by decide, by decide, by decide,
    C10_wildcard_requested_twice regSample ["schema", "*"] oVerbose (by decide)
      (by decide) (by decide)⟩

end OptionsPy
